import Mathlib

/-!
# Verification of the Fast-Menu-Qr-Code menu data model and services

Shallow embedding of the TypeScript sources:

* `src/types.ts` — the menu data model (`MenuItem`, `MenuCategory`, `RestaurantMenu`);
* `src/services/storageService.ts` — dual local/remote persistence
  (`saveMenu`, `getMenu`, `getMenuBySlug`, `isSlugAvailable`);
* `src/services/geminiService.ts` (provided unnamed) — `generateMenuFromAI` fallback behaviour;
* `src/components/Creator.tsx` — slug selection in `handleCreate` and the Editor's
  category/item mutation handlers (both as pure functions on values and, where reference
  sharing matters, as functions on an explicit heap of mutable JS arrays/objects);
* `src/components/MenuViewer.tsx` — the selection map (`updateCart`, `getTotalItems`,
  `getTotalPrice`) and the selection-modal rendering.

Browser storage is modelled as an insertion-ordered association list (JS object
semantics: assignment overwrites in place or appends, `delete` removes the key);
the optional Firestore connection is an `Option` of a remote document map.
Executions are modelled error-free: remote calls succeed whenever a connection is
configured, matching the code paths in which no exception is thrown.
-/

namespace FlashMenu

/-- `src/types.ts` `Language`. -/
inductive Language where
  | en
  | pt
deriving Repr, DecidableEq

/-- `src/types.ts` `MenuItem`: `image` is an optional base64 data URL. -/
structure MenuItem where
  name : String
  description : String
  price : String
  image : Option String := none
deriving Repr, DecidableEq

/-- `src/types.ts` `MenuCategory`: `highlight?` is an optional boolean. -/
structure MenuCategory where
  title : String
  items : List MenuItem
  highlight : Option Bool := none
deriving Repr, DecidableEq

/-- `src/types.ts` `RestaurantMenu`. `createdAt` is a millisecond timestamp. -/
structure RestaurantMenu where
  id : String
  slug : String
  ownerId : Option String := none
  name : String
  businessType : Option String := none
  whatsapp : Option String := none
  customQrUrl : Option String := none
  themeColor : String
  logo : Option String := none
  categories : List MenuCategory
  createdAt : Nat
  language : Option Language := none
deriving Repr, DecidableEq

/-! ## JS object maps

Insertion-ordered association lists modelling plain JS objects used as maps
(the `localStorage` menu record, the cart object, heap cells). -/

/-- JS property read `m[k]`: first (unique) binding of `k`, `undefined` as `none`. -/
def recGet {κ α : Type} [DecidableEq κ] : List (κ × α) → κ → Option α
  | [], _ => none
  | (k', v) :: rest, k => if k' = k then some v else recGet rest k

/-- JS property write `m[k] = v`: overwrite in place if `k` is bound, else append. -/
def recSet {κ α : Type} [DecidableEq κ] : List (κ × α) → κ → α → List (κ × α)
  | [], k, v => [(k, v)]
  | (k', v') :: rest, k, v =>
    if k' = k then (k, v) :: rest else (k', v') :: recSet rest k v

/-- JS `delete m[k]`. -/
def recDel {κ α : Type} [DecidableEq κ] (m : List (κ × α)) (k : κ) : List (κ × α) :=
  m.filter (fun p => p.1 ≠ k)

theorem recGet_recSet_self {κ α : Type} [DecidableEq κ] (m : List (κ × α)) (k : κ) (v : α) :
    recGet (recSet m k v) k = some v := by
  induction m with
  | nil => simp [recGet, recSet]
  | cons p rest ih =>
    obtain ⟨k', v'⟩ := p
    by_cases h : k' = k <;> simp [recGet, recSet, h, ih]

theorem recGet_recSet_ne {κ α : Type} [DecidableEq κ] (m : List (κ × α)) (k k' : κ) (v : α)
    (h : k ≠ k') : recGet (recSet m k v) k' = recGet m k' := by
  induction m with
  | nil => simp [recGet, recSet, h]
  | cons p rest ih =>
    obtain ⟨k₀, v₀⟩ := p
    by_cases h₀ : k₀ = k
    · subst h₀
      simp [recGet, recSet, h]
    · simp only [recSet, if_neg h₀]
      by_cases h₁ : k₀ = k' <;> simp [recGet, h₁, ih]

theorem recGet_eq_none_iff {κ α : Type} [DecidableEq κ] (m : List (κ × α)) (k : κ) :
    recGet m k = none ↔ ∀ p ∈ m, p.1 ≠ k := by
  induction m with
  | nil => simp [recGet]
  | cons p rest ih =>
    obtain ⟨k', v'⟩ := p
    by_cases h : k' = k <;> simp [recGet, h, ih]

theorem recSet_of_absent {κ α : Type} [DecidableEq κ] (m : List (κ × α)) (k : κ) (v : α)
    (h : recGet m k = none) : recSet m k v = m ++ [(k, v)] := by
  induction m with
  | nil => simp [recSet]
  | cons p rest ih =>
    obtain ⟨k', v'⟩ := p
    simp only [recGet] at h
    by_cases h' : k' = k
    · simp [h'] at h
    · simp only [recSet, if_neg h', List.cons_append, List.cons.injEq, true_and]
      exact ih (by simpa [h'] using h)

theorem recDel_of_absent {κ α : Type} [DecidableEq κ] (m : List (κ × α)) (k : κ)
    (h : recGet m k = none) : recDel m k = m := by
  rw [recDel, List.filter_eq_self]
  intro p hp
  have := (recGet_eq_none_iff m k).mp h p hp
  simpa using this

theorem mem_recSet {κ α : Type} [DecidableEq κ] {m : List (κ × α)} {k : κ} {v : α} {p : κ × α} :
    p ∈ recSet m k v → p = (k, v) ∨ p ∈ m := by
  induction m with
  | nil => intro h; simpa [recSet] using h
  | cons q rest ih =>
    obtain ⟨k', v'⟩ := q
    intro h
    by_cases h' : k' = k
    · simp only [recSet, if_pos h'] at h
      rcases List.mem_cons.mp h with h | h
      · exact Or.inl h
      · exact Or.inr (List.mem_cons_of_mem _ h)
    · simp only [recSet, if_neg h'] at h
      rcases List.mem_cons.mp h with h | h
      · exact Or.inr (by simp [h])
      · rcases ih h with h | h
        · exact Or.inl h
        · exact Or.inr (List.mem_cons_of_mem _ h)

/-! ## `src/services/storageService.ts`

State: the `flashmenu_db_v1` map in `localStorage`, plus the optional Firestore
connection `db` holding the `menus` collection as a document map keyed by `id`.
`db = none` models absent store credentials (`firebase.ts` exports `db = null`). -/

/-- Persistence state: local browser storage and the optional remote document store. -/
structure StoreState where
  localData : List (String × RestaurantMenu)
  db : Option (List (String × RestaurantMenu))
deriving Repr, DecidableEq

/-- `saveMenuLocally` (storageService.ts lines 7–16): `menus[menu.id] = menu`. -/
def saveMenuLocally (s : StoreState) (menu : RestaurantMenu) : StoreState :=
  { s with localData := recSet s.localData menu.id menu }

/-- `saveMenu` (lines 18–30): optimistic local save, then remote upsert keyed by `id`
when a connection exists. -/
def saveMenu (s : StoreState) (menu : RestaurantMenu) : StoreState :=
  let s₁ := saveMenuLocally s menu
  match s₁.db with
  | none => s₁
  | some r => { s₁ with db := some (recSet r menu.id menu) }

/-- `getMenu` (lines 32–53): remote read first (mirroring a hit into local storage),
falling back to the local map. Returns the result and the updated state. -/
def getMenu (s : StoreState) (id : String) : Option RestaurantMenu × StoreState :=
  match s.db with
  | some r =>
    match recGet r id with
    | some menu => (some menu, saveMenuLocally s menu)
    | none => (recGet s.localData id, s)
  | none => (recGet s.localData id, s)

/-- `getMenuBySlug` (lines 56–77): remote query on the `slug` field (first matching
document), falling back to a linear scan of the local map's values. The remote hit
is returned without being mirrored into local storage. -/
def getMenuBySlug (s : StoreState) (slug : String) : Option RestaurantMenu × StoreState :=
  match s.db with
  | some r =>
    match (r.map Prod.snd).find? (fun m => m.slug == slug) with
    | some menu => (some menu, s)
    | none => ((s.localData.map Prod.snd).find? (fun m => m.slug == slug), s)
  | none => ((s.localData.map Prod.snd).find? (fun m => m.slug == slug), s)

/-- `isSlugAvailable` (lines 79–84): optimistically `true` without a connection,
otherwise `true` iff no remote document carries the slug. -/
def isSlugAvailable (s : StoreState) (slug : String) : Bool :=
  match s.db with
  | none => true
  | some r => ((r.map Prod.snd).find? (fun m => m.slug == slug)).isNone

/-- `Creator.tsx` `handleCreate`, lines 39–44: keep the AI-generated slug when it is
available, otherwise append a random numeric suffix (`Math.floor(Math.random()*1000)`,
modelled by `rand % 1000`); the suffixed slug's availability is not checked again. -/
def handleCreateSlug (s : StoreState) (generated : String) (rand : Nat) : String :=
  if isSlugAvailable s generated then generated
  else generated ++ "-" ++ toString (rand % 1000)

/-- All stored documents have pairwise distinct slugs. -/
def slugUnique (docs : List RestaurantMenu) : Prop :=
  ∀ a ∈ docs, ∀ b ∈ docs, a.slug = b.slug → a = b

instance slugUniqueDecidable (docs : List RestaurantMenu) : Decidable (slugUnique docs) := by
  unfold slugUnique
  infer_instance

theorem recGet_mem {κ α : Type} [DecidableEq κ] {m : List (κ × α)} {k : κ} {v : α} :
    recGet m k = some v → (k, v) ∈ m := by
  induction m with
  | nil => intro h; simp [recGet] at h
  | cons p rest ih =>
    obtain ⟨k', v'⟩ := p
    intro h
    by_cases h' : k' = k
    · simp only [recGet, if_pos h', Option.some.injEq] at h
      subst h'; subst h; exact List.mem_cons_self _ _
    · simp only [recGet, if_neg h'] at h
      exact List.mem_cons_of_mem _ (ih h)

theorem find?_slug_of_unique {docs : List RestaurantMenu} {m : RestaurantMenu}
    (hm : m ∈ docs) (hu : slugUnique docs) :
    docs.find? (fun d => d.slug == m.slug) = some m := by
  have hsome : (docs.find? (fun d => d.slug == m.slug)).isSome := by
    rw [List.find?_isSome]
    exact ⟨m, hm, by simp⟩
  obtain ⟨d, hd⟩ := Option.isSome_iff_exists.mp hsome
  have hdmem := List.mem_of_find?_eq_some hd
  have hdslug : d.slug = m.slug := by simpa using List.find?_some hd
  rw [hd, hu d hdmem m hm hdslug]

/-! ## Sample data shared by concrete witnesses -/

/-- A small concrete menu used to instantiate universally quantified theorems. -/
def sampleMenu : RestaurantMenu :=
  { id := "id-1", slug := "joes-grill", name := "Joe's Grill",
    businessType := some "Hamburgueria", themeColor := "orange",
    categories := [{ title := "Burgers",
                     items := [{ name := "Classic", description := "Beef", price := "$12.00" }] }],
    createdAt := 1700000000000 }

/-- A second concrete menu whose slug carries the numeric suffix `-123`. -/
def sampleMenuSuffixed : RestaurantMenu :=
  { id := "id-2", slug := "joes-grill-123", name := "Joe's Grill 123",
    themeColor := "blue", categories := [], createdAt := 1700000000001 }

/-! ## C1 — save/load round trip -/

/-- C1: after `saveMenu m`, `getMenu m.id` returns a menu structurally equal to `m`,
whether or not a remote store is configured; with no remote store, the save writes `m`
into the local-storage map under `m.id` and the load reads exactly that entry back. -/
theorem saveMenu_getMenu_roundtrip (s : StoreState) (m : RestaurantMenu) :
    (getMenu (saveMenu s m) m.id).1 = some m ∧
      (s.db = none →
        (saveMenu s m).localData = recSet s.localData m.id m ∧
          recGet (saveMenu s m).localData m.id = some m) := by
  cases hdb : s.db with
  | none =>
    refine ⟨?_, fun _ => ⟨?_, ?_⟩⟩ <;>
      simp [saveMenu, saveMenuLocally, getMenu, hdb, recGet_recSet_self]
  | some r =>
    refine ⟨?_, fun hnone => by simp at hnone⟩
    simp [saveMenu, saveMenuLocally, getMenu, hdb, recGet_recSet_self]

/-- C1 witness: the round trip at a concrete store and menu, with the local-write
conjuncts discharged for the store with no remote connection. -/
theorem saveMenu_getMenu_roundtrip_witness :
    (getMenu (saveMenu ⟨[], none⟩ sampleMenu) sampleMenu.id).1 = some sampleMenu ∧
      (saveMenu ⟨[], none⟩ sampleMenu).localData = recSet [] sampleMenu.id sampleMenu ∧
        recGet (saveMenu ⟨[], none⟩ sampleMenu).localData sampleMenu.id = some sampleMenu :=
  ⟨(saveMenu_getMenu_roundtrip ⟨[], none⟩ sampleMenu).1,
    (saveMenu_getMenu_roundtrip ⟨[], none⟩ sampleMenu).2 rfl⟩

/-! ## C4 — which remote reads repair local storage -/

/-- A store whose remote side holds `sampleMenu` while local storage is empty. -/
def remoteOnlyState : StoreState := ⟨[], some [("id-1", sampleMenu)]⟩

/-- C4 counterexample: `getMenuBySlug` performs a successful remote read (it returns
the remote document) yet does not write the fetched menu into local storage — local
storage still has no entry under the menu's id afterwards. -/
theorem getMenuBySlug_no_local_mirror :
    (getMenuBySlug remoteOnlyState "joes-grill").1 = some sampleMenu ∧
      recGet (getMenuBySlug remoteOnlyState "joes-grill").2.localData "id-1" = none := by
  constructor <;> rfl

/-- C4 amended: `getMenu` mirrors every successful remote read into local storage
under the fetched menu's id, but `getMenuBySlug` never modifies the state at all. -/
theorem remote_read_local_mirror (s : StoreState) :
    (∀ r id menu, s.db = some r → recGet r id = some menu →
        (getMenu s id).1 = some menu ∧
          (getMenu s id).2.localData = recSet s.localData menu.id menu) ∧
      ∀ slug, (getMenuBySlug s slug).2 = s := by
  constructor
  · intro r id menu hdb hget
    simp [getMenu, hdb, hget, saveMenuLocally]
  · intro slug
    cases hdb : s.db with
    | none => simp [getMenuBySlug, hdb]
    | some r =>
      simp only [getMenuBySlug, hdb]
      cases (r.map Prod.snd).find? (fun m => m.slug == slug) <;> simp

/-- C4 witness: the amended behaviour at the concrete remote-only store. -/
theorem remote_read_local_mirror_witness :
    ((getMenu remoteOnlyState "id-1").1 = some sampleMenu ∧
        (getMenu remoteOnlyState "id-1").2.localData =
          recSet ([] : List (String × RestaurantMenu)) sampleMenu.id sampleMenu) ∧
      (getMenuBySlug remoteOnlyState "joes-grill").2 = remoteOnlyState :=
  ⟨(remote_read_local_mirror remoteOnlyState).1 [("id-1", sampleMenu)] "id-1" sampleMenu rfl rfl,
    (remote_read_local_mirror remoteOnlyState).2 "joes-grill"⟩

/-! ## C5 — lookup by slug agrees with lookup by id -/

/-- C5: for a stored menu `m` under slug uniqueness, `getMenuBySlug m.slug` and
`getMenu m.id` return the same menu `m`: when there is no remote store (local scan),
when the remote store holds `m`, and when the remote store misses so that both
lookups fall back to local storage. -/
theorem getMenuBySlug_eq_getMenu (s : StoreState) (m : RestaurantMenu) :
    (s.db = none → recGet s.localData m.id = some m →
      slugUnique (s.localData.map Prod.snd) →
        (getMenuBySlug s m.slug).1 = some m ∧ (getMenu s m.id).1 = some m) ∧
      (∀ r, s.db = some r → recGet r m.id = some m → slugUnique (r.map Prod.snd) →
        (getMenuBySlug s m.slug).1 = some m ∧ (getMenu s m.id).1 = some m) ∧
      (∀ r, s.db = some r → recGet r m.id = none →
        (r.map Prod.snd).find? (fun d => d.slug == m.slug) = none →
        recGet s.localData m.id = some m → slugUnique (s.localData.map Prod.snd) →
          (getMenuBySlug s m.slug).1 = some m ∧ (getMenu s m.id).1 = some m) := by
  refine ⟨?_, ?_, ?_⟩
  · intro hdb hget hu
    have hmem : m ∈ s.localData.map Prod.snd :=
      List.mem_map.mpr ⟨(m.id, m), recGet_mem hget, rfl⟩
    simp [getMenuBySlug, getMenu, hdb, hget, find?_slug_of_unique hmem hu]
  · intro r hdb hget hu
    have hmem : m ∈ r.map Prod.snd := List.mem_map.mpr ⟨(m.id, m), recGet_mem hget, rfl⟩
    simp [getMenuBySlug, getMenu, hdb, hget, find?_slug_of_unique hmem hu]
  · intro r hdb hrget hrfind hget hu
    have hmem : m ∈ s.localData.map Prod.snd :=
      List.mem_map.mpr ⟨(m.id, m), recGet_mem hget, rfl⟩
    simp [getMenuBySlug, getMenu, hdb, hrget, hrfind, hget, find?_slug_of_unique hmem hu]

/-- C5 witness: both lookups return the stored menu in a concrete local-only store. -/
theorem getMenuBySlug_eq_getMenu_witness :
    (getMenuBySlug ⟨[("id-1", sampleMenu)], none⟩ sampleMenu.slug).1 = some sampleMenu ∧
      (getMenu ⟨[("id-1", sampleMenu)], none⟩ sampleMenu.id).1 = some sampleMenu :=
  (getMenuBySlug_eq_getMenu ⟨[("id-1", sampleMenu)], none⟩ sampleMenu).1 rfl (by rfl)
    (by decide)

/-! ## C3 — slug collision handling in the Creator -/

/-- A store whose remote side already holds both `joes-grill` and `joes-grill-123`. -/
def collisionState : StoreState :=
  ⟨[], some [("id-1", sampleMenu), ("id-2", sampleMenuSuffixed)]⟩

/-- C3 counterexample: with slug `joes-grill` colliding and random draw `123`, the
Creator picks `joes-grill-123`, which is itself already taken — the suffixed slug is
not available in the store, contradicting the claim that the resulting slug is
always available. -/
theorem handleCreateSlug_suffixed_unavailable :
    isSlugAvailable collisionState "joes-grill" = false ∧
      handleCreateSlug collisionState "joes-grill" 123 = "joes-grill-123" ∧
        isSlugAvailable collisionState (handleCreateSlug collisionState "joes-grill" 123) =
          false := by
  refine ⟨rfl, rfl, rfl⟩

/-- C3 amended: an available generated slug is kept unchanged, and on a collision the
Creator switches to the suffixed slug, which always differs from the colliding slug —
but its availability is not re-checked, so it may itself be taken. -/
theorem handleCreateSlug_avoids_collision (s : StoreState) (g : String) (rand : Nat) :
    (isSlugAvailable s g = true → handleCreateSlug s g rand = g) ∧
      (isSlugAvailable s g = false → handleCreateSlug s g rand ≠ g) := by
  constructor
  · intro h
    simp [handleCreateSlug, h]
  · intro h heq
    have hlen := congrArg String.length heq
    simp only [handleCreateSlug, h, Bool.false_eq_true, if_false,
      String.length_append] at hlen
    have hdash : ("-" : String).length = 1 := rfl
    rw [hdash] at hlen
    omega

/-- C3 witness: collision avoidance at the concrete colliding store. -/
theorem handleCreateSlug_avoids_collision_witness :
    handleCreateSlug collisionState "joes-grill" 123 ≠ "joes-grill" :=
  (handleCreateSlug_avoids_collision collisionState "joes-grill" 123).2 rfl

/-! ## `src/components/MenuViewer.tsx` — selection map, totals, modal rendering

The selection ("cart") is a JS object keyed by `` `${catIdx}-${itemIdx}` `` with
numeric counts, modelled as an insertion-ordered association list. -/

/-- JS `'...'.split('-')` on the character list of a string. -/
def splitOnDash : List Char → List (List Char)
  | [] => [[]]
  | c :: cs =>
    if c = '-' then [] :: splitOnDash cs
    else
      match splitOnDash cs with
      | [] => [[c]]
      | p :: ps => (c :: p) :: ps

/-- Digit characters read as a natural number. -/
def digitsToNat (cs : List Char) : Nat :=
  cs.foldl (fun n c => n * 10 + (c.toNat - '0'.toNat)) 0

/-- JS `Number` applied to a split cart-key part: `Number("") = 0`, a digit string is
its value, and any other part — including a missing one, `Number(undefined)` — is
`NaN`, modelled as `none` because a `NaN` array index resolves to no element. -/
def jsKeyIndex : Option (List Char) → Option Nat
  | none => none
  | some [] => some 0
  | some cs => if cs.all Char.isDigit then some (digitsToNat cs) else none

/-- Key resolution shared by `getTotalPrice` (lines 147–148) and the selection modal
(lines 478–480): split the key on `-`, read both indices with `Number`, and look the
item up with optional chaining. -/
def resolveItem (menu : RestaurantMenu) (key : String) : Option MenuItem :=
  let parts := splitOnDash key.toList
  match jsKeyIndex parts[0]?, jsKeyIndex parts[1]? with
  | some cIdx, some iIdx => menu.categories[cIdx]?.bind (fun cat => cat.items[iIdx]?)
  | _, _ => none

/-- Replace the first `,` by `.` — JS `String.replace(',', '.')` with a string
pattern replaces only the first occurrence. -/
def replaceFirstComma : List Char → List Char
  | [] => []
  | c :: cs => if c = ',' then '.' :: cs else c :: replaceFirstComma cs

/-- JS `parseFloat` on a cleaned price string (digits, `.`, `,` only): the longest
leading `digits [. digits]` prefix, `NaN` (`none`) when no digit is read. -/
def parseFloatQ (cs : List Char) : Option ℚ :=
  let intPart := cs.takeWhile Char.isDigit
  let rest := cs.drop intPart.length
  let fracPart :=
    match rest with
    | '.' :: r => r.takeWhile Char.isDigit
    | _ => []
  if intPart.isEmpty ∧ fracPart.isEmpty then none
  else some ((digitsToNat intPart : ℚ) + (digitsToNat fracPart : ℚ) / ((10 ^ fracPart.length : Nat) : ℚ))

/-- Price parsing in `getTotalPrice` (lines 151–152): strip every character other
than digits, `.` and `,`; replace the first `,` by `.`; `parseFloat`, with `NaN`
coerced to `0` by `|| 0`. -/
def parsePrice (price : String) : ℚ :=
  let cleaned := price.toList.filter (fun c => c.isDigit || c = '.' || c = ',')
  (parseFloatQ (replaceFirstComma cleaned)).getD 0

/-- `getTotalPrice` (lines 143–157): sum `price * count` over the selection entries
whose key resolves to an item. The TS function formats the result with `toFixed(2)`;
the embedding returns the exact rational total. -/
def getTotalPrice (menu : RestaurantMenu) (cart : List (String × Nat)) : ℚ :=
  cart.foldl
    (fun total kv =>
      match resolveItem menu kv.1 with
      | none => total
      | some item => total + parsePrice item.price * kv.2) 0

/-- Selection-modal entries (lines 477–494): cart entries whose key resolves render
with their item; an unresolvable key renders `null`, i.e. nothing. -/
def renderedSelection (menu : RestaurantMenu) (cart : List (String × Nat)) :
    List (String × Nat × MenuItem) :=
  cart.filterMap (fun kv => (resolveItem menu kv.1).map (fun item => (kv.1, kv.2, item)))

/-- Cart keys `` `${catIdx}-${itemIdx}` `` (line 131). -/
def cartKey (catIdx itemIdx : Nat) : String :=
  toString catIdx ++ "-" ++ toString itemIdx

/-- `updateCart` (lines 130–139): clamp the new count at `0` with `Math.max`, write
it into a copy of the map, and delete the key when the new count is `0`. -/
def updateCart (cart : List (String × Nat)) (catIdx itemIdx : Nat) (delta : Int) :
    List (String × Nat) :=
  let key := cartKey catIdx itemIdx
  let current : Nat := (recGet cart key).getD 0
  let newCount : Int := max 0 ((current : Int) + delta)
  let newCart := recSet cart key newCount.toNat
  if newCount = 0 then recDel newCart key else newCart

/-- `getTotalItems` (line 141): `Object.values(cart).reduce((a, b) => a + b, 0)`. -/
def getTotalItems (cart : List (String × Nat)) : Nat :=
  (cart.map Prod.snd).foldl (· + ·) 0

/-! ## C2 — concrete price totalling -/

/-- The Viewer menu of claim C2: one category with prices `$12.00`, `R$8,50`, `free`. -/
def pricesMenu : RestaurantMenu :=
  { id := "p", slug := "prices", name := "Prices", themeColor := "red",
    categories := [{ title := "All",
                     items := [{ name := "A", description := "", price := "$12.00" },
                               { name := "B", description := "", price := "R$8,50" },
                               { name := "C", description := "", price := "free" }] }],
    createdAt := 0 }

/-- The C2 selection: counts 2, 1 and 3 for the three items. -/
def pricesCart : List (String × Nat) := [("0-0", 2), ("0-1", 1), ("0-2", 3)]

/-- C2: on prices `$12.00`, `R$8,50`, `free` with counts 2, 1, 3, `getTotalPrice`
strips non-numeric characters (keeping the decimal separator), yielding
`2·12.00 + 1·8.50 = 32.50`; the unparsable price `free` parses to `0` and the
entry contributes nothing to the total. -/
theorem getTotalPrice_concrete :
    getTotalPrice pricesMenu pricesCart = 65 / 2 ∧
      parsePrice "free" = 0 ∧
      getTotalPrice pricesMenu pricesCart = getTotalPrice pricesMenu [("0-0", 2), ("0-1", 1)] := by
  have h0 : resolveItem pricesMenu "0-0" = some ⟨"A", "", "$12.00", none⟩ := rfl
  have h1 : resolveItem pricesMenu "0-1" = some ⟨"B", "", "R$8,50", none⟩ := rfl
  have h2 : resolveItem pricesMenu "0-2" = some ⟨"C", "", "free", none⟩ := rfl
  have hp0 : parsePrice "$12.00" = ((12 : Nat) : ℚ) + ((0 : Nat) : ℚ) / ((100 : Nat) : ℚ) := rfl
  have hp1 : parsePrice "R$8,50" = ((8 : Nat) : ℚ) + ((50 : Nat) : ℚ) / ((100 : Nat) : ℚ) := rfl
  have hp2 : parsePrice "free" = 0 := rfl
  refine ⟨?_, hp2, ?_⟩ <;>
  · simp only [getTotalPrice, pricesCart, List.foldl_cons, List.foldl_nil,
      h0, h1, h2, hp0, hp1, hp2]
    norm_num

/-! ## C10 — selection-map invariant -/

/-- A Viewer session: `updateCart` clicks applied in order, starting from the empty
selection. -/
def applyCartOps (ops : List (Nat × Nat × Int)) : List (String × Nat) :=
  ops.foldl (fun cart op => updateCart cart op.1 op.2.1 op.2.2) []

theorem updateCart_counts_pos (cart : List (String × Nat)) (catIdx itemIdx : Nat) (delta : Int)
    (h : ∀ kv ∈ cart, 1 ≤ kv.2) :
    ∀ kv ∈ updateCart cart catIdx itemIdx delta, 1 ≤ kv.2 := by
  intro kv hkv
  simp only [updateCart] at hkv
  set key := cartKey catIdx itemIdx with hkey
  set newCount : Int := max 0 (((recGet cart key).getD 0 : Int) + delta) with hnc
  by_cases h0 : newCount = 0
  · rw [if_pos h0] at hkv
    have hmem : kv ∈ recSet cart key newCount.toNat ∧ kv.1 ≠ key := by
      simpa [recDel, List.mem_filter] using hkv
    rcases mem_recSet hmem.1 with heq | hin
    · exact absurd (by rw [heq]) hmem.2
    · exact h kv hin
  · rw [if_neg h0] at hkv
    rcases mem_recSet hkv with heq | hin
    · have hpos : 0 < newCount := lt_of_le_of_ne (le_max_left _ _) (Ne.symm h0)
      have : 1 ≤ newCount.toNat := by omega
      rw [heq]
      exact this
    · exact h kv hin

theorem applyCartOps_counts_pos_aux (ops : List (Nat × Nat × Int)) :
    ∀ cart, (∀ kv ∈ cart, 1 ≤ kv.2) →
      ∀ kv ∈ ops.foldl (fun c op => updateCart c op.1 op.2.1 op.2.2) cart, 1 ≤ kv.2 := by
  induction ops with
  | nil => intro cart h; simpa using h
  | cons op rest ih =>
    intro cart h
    exact ih _ (updateCart_counts_pos cart op.1 op.2.1 op.2.2 h)

/-- C10: starting from the empty selection, any sequence of `updateCart` clicks with
deltas `+1`/`-1` keeps every stored count at least `1` (a count reaching `0` removes
its key); a decrement on an absent key leaves the map unchanged; and `getTotalItems`
is the sum of the stored counts. -/
theorem updateCart_invariant :
    (∀ ops : List (Nat × Nat × Int), (∀ op ∈ ops, op.2.2 = 1 ∨ op.2.2 = -1) →
      ∀ kv ∈ applyCartOps ops, 1 ≤ kv.2) ∧
      (∀ cart catIdx itemIdx, recGet cart (cartKey catIdx itemIdx) = none →
        updateCart cart catIdx itemIdx (-1) = cart) ∧
      ∀ cart, getTotalItems cart = (cart.map Prod.snd).sum := by
  refine ⟨?_, ?_, ?_⟩
  · intro ops _ kv hkv
    exact applyCartOps_counts_pos_aux ops [] (by simp) kv hkv
  · intro cart catIdx itemIdx h
    have hif : (max 0 (((0 : Nat) : Int) + -1)) = 0 := by decide
    simp only [updateCart, h, Option.getD_none, hif, if_pos]
    rw [recSet_of_absent cart _ _ h]
    simp only [recDel, List.filter_append]
    have h₁ : List.filter (fun p => decide (p.1 ≠ cartKey catIdx itemIdx)) cart = cart := by
      have h₂ := recDel_of_absent cart (cartKey catIdx itemIdx) h
      simpa [recDel] using h₂
    simp [h₁]
    intro a b hab
    exact (recGet_eq_none_iff cart _).mp h (a, b) hab
  · intro cart
    rw [getTotalItems, ← List.sum_eq_foldl]

/-- C10 witness: the invariant after a concrete click sequence, a concrete absent-key
decrement, and a concrete totals sum. -/
theorem updateCart_invariant_witness :
    (∀ kv ∈ applyCartOps [(0, 0, 1), (0, 0, 1), (1, 2, 1), (0, 0, -1), (3, 3, -1)], 1 ≤ kv.2) ∧
      updateCart [("5-5", 2)] 0 0 (-1) = [("5-5", 2)] ∧
        getTotalItems [("0-0", 2), ("1-2", 1)] = ([("0-0", 2), ("1-2", 1)].map Prod.snd).sum :=
  ⟨updateCart_invariant.1 [(0, 0, 1), (0, 0, 1), (1, 2, 1), (0, 0, -1), (3, 3, -1)] (by decide),
    updateCart_invariant.2.1 [("5-5", 2)] 0 0 (by decide),
    updateCart_invariant.2.2 [("0-0", 2), ("1-2", 1)]⟩

/-! ## C8 — deleting a category, and orphaned selection keys -/

/-- `deleteCategory` (Creator.tsx lines 520–525): splice the category at `index` out
of a fresh copy of the categories array. -/
def deleteCategory (menu : RestaurantMenu) (index : Nat) : RestaurantMenu :=
  { menu with categories := menu.categories.eraseIdx index }

/-- C8: `deleteCategory i` removes exactly the category at index `i` — the length
drops by one, categories before `i` keep their position and the ones after shift
down by one, each preserved whole (title, highlight flag, items); and a selection
key that no longer resolves to an item contributes nothing to `getTotalPrice` and
renders nothing in the selection modal. -/
theorem deleteCategory_spec (menu : RestaurantMenu) (i : Nat)
    (hi : i < menu.categories.length) :
    (deleteCategory menu i).categories.length = menu.categories.length - 1 ∧
      (∀ j, j < i → (deleteCategory menu i).categories[j]? = menu.categories[j]?) ∧
      (∀ j, i ≤ j → (deleteCategory menu i).categories[j]? = menu.categories[j + 1]?) ∧
      ∀ key count cart, resolveItem (deleteCategory menu i) key = none →
        getTotalPrice (deleteCategory menu i) ((key, count) :: cart) =
            getTotalPrice (deleteCategory menu i) cart ∧
          renderedSelection (deleteCategory menu i) ((key, count) :: cart) =
            renderedSelection (deleteCategory menu i) cart := by
  refine ⟨?_, ?_, ?_, ?_⟩
  · simp [deleteCategory, List.length_eraseIdx_of_lt hi]
  · intro j hj
    simp [deleteCategory, List.getElem?_eraseIdx_of_lt _ _ _ hj]
  · intro j hj
    simp [deleteCategory, List.getElem?_eraseIdx_of_ge _ _ _ hj]
  · intro key count cart hkey
    constructor
    · simp [getTotalPrice, hkey]
    · simp [renderedSelection, hkey]

/-- A concrete two-category menu for the C8 witness. -/
def twoCatMenu : RestaurantMenu :=
  { id := "t", slug := "two", name := "Two", themeColor := "emerald",
    categories := [{ title := "A", items := [{ name := "a1", description := "", price := "1.00" }] },
                   { title := "B", items := [{ name := "b1", description := "", price := "2.00" }],
                     highlight := some true }],
    createdAt := 0 }

/-- C8 witness: deleting category 0 of a two-category menu, with the orphaned key
`1-0` (whose category index no longer resolves) contributing nothing. -/
theorem deleteCategory_spec_witness :
    (deleteCategory twoCatMenu 0).categories.length = twoCatMenu.categories.length - 1 ∧
      getTotalPrice (deleteCategory twoCatMenu 0) [("1-0", 4)] =
          getTotalPrice (deleteCategory twoCatMenu 0) [] ∧
        renderedSelection (deleteCategory twoCatMenu 0) [("1-0", 4)] =
          renderedSelection (deleteCategory twoCatMenu 0) [] :=
  ⟨(deleteCategory_spec twoCatMenu 0 (by decide)).1,
    ((deleteCategory_spec twoCatMenu 0 (by decide)).2.2.2 "1-0" 4 [] rfl).1,
    ((deleteCategory_spec twoCatMenu 0 (by decide)).2.2.2 "1-0" 4 [] rfl).2⟩

/-! ## C7 — drag-reorder of items within a category -/

/-- dnd-kit's `arrayMove` (imported by `Creator.tsx`): remove the element at
`fromIdx` and re-insert it at `toIdx`. Modelled from the library's documented
behaviour for in-range indices; `handleDragEnd` only calls it with indices produced
by `findIndex` over the items, and an out-of-range source index leaves the list
unchanged in the embedding. -/
def arrayMove {α : Type} (l : List α) (fromIdx toIdx : Nat) : List α :=
  match l[fromIdx]? with
  | none => l
  | some x => List.insertIdx toIdx x (l.eraseIdx fromIdx)

/-- The sortable item ids `` `${catIndex}-${idx}` `` used by the Editor's drag list. -/
def dragId (catIndex idx : Nat) : String :=
  toString catIndex ++ "-" ++ toString idx

/-- `category.items.findIndex((_, idx) => ... === id)` (Creator.tsx lines 562–563):
the first item position whose drag id matches, with `-1` modelled as `none`. -/
def findDragIdx (catIndex len : Nat) (targetId : String) : Option Nat :=
  (List.range len).find? (fun idx => dragId catIndex idx == targetId)

/-- `handleDragEnd` (lines 558–570): no-op when the drag target equals the source or
an index is not found; otherwise replace category `catIndex`'s items by the
`arrayMove` result in a fresh copy of the categories array. Call sites only pass
indices of rendered categories; an out-of-range `catIndex` is modelled as a no-op. -/
def handleDragEnd (menu : RestaurantMenu) (catIndex : Nat) (activeId overId : String) :
    RestaurantMenu :=
  if activeId == overId then menu
  else
    match menu.categories[catIndex]? with
    | none => menu
    | some category =>
      match findDragIdx catIndex category.items.length activeId,
          findDragIdx catIndex category.items.length overId with
      | some oldIndex, some newIndex =>
        { menu with
            categories := menu.categories.set catIndex
              { category with items := arrayMove category.items oldIndex newIndex } }
      | some _, none => menu
      | none, _ => menu

theorem insertIdx_perm_cons {α : Type} (x : α) :
    ∀ (n : Nat) (m : List α), n ≤ m.length → (List.insertIdx n x m).Perm (x :: m) := by
  intro n
  induction n with
  | zero => intro m _; simp [List.insertIdx_zero]
  | succ k ih =>
    intro m h
    cases m with
    | nil => simp at h
    | cons a t =>
      rw [List.insertIdx_succ_cons]
      exact ((ih t (by simpa using h)).cons a).trans (List.Perm.swap x a t)

theorem cons_eraseIdx_perm {α : Type} :
    ∀ (l : List α) (o : Nat) (x : α), l[o]? = some x → (x :: l.eraseIdx o).Perm l := by
  intro l
  induction l with
  | nil => intro o x h; simp at h
  | cons a t ih =>
    intro o x h
    cases o with
    | zero =>
      simp only [List.getElem?_cons_zero, Option.some.injEq] at h
      subst h
      simp [List.eraseIdx]
    | succ k =>
      simp only [List.getElem?_cons_succ] at h
      have h₂ := ih k x h
      have hid : (a :: t).eraseIdx (k + 1) = a :: t.eraseIdx k := rfl
      rw [hid]
      exact (List.Perm.swap a x (t.eraseIdx k)).trans (h₂.cons a)

theorem arrayMove_perm {α : Type} (l : List α) (o n : Nat) (ho : o < l.length)
    (hn : n < l.length) : (arrayMove l o n).Perm l := by
  have hx : l[o]? = some l[o] := List.getElem?_eq_getElem ho
  simp only [arrayMove, hx]
  have hlen : (l.eraseIdx o).length = l.length - 1 := List.length_eraseIdx_of_lt ho
  have hn' : n ≤ (l.eraseIdx o).length := by omega
  exact (insertIdx_perm_cons _ n _ hn').trans (cons_eraseIdx_perm l o _ hx)

theorem arrayMove_get_target {α : Type} (l : List α) (o n : Nat) (ho : o < l.length)
    (hn : n < l.length) : (arrayMove l o n)[n]? = l[o]? := by
  have hx : l[o]? = some l[o] := List.getElem?_eq_getElem ho
  simp only [arrayMove, hx]
  have hlen : (l.eraseIdx o).length = l.length - 1 := List.length_eraseIdx_of_lt ho
  have hn' : n ≤ (l.eraseIdx o).length := by omega
  have hlen2 : (List.insertIdx n l[o] (l.eraseIdx o)).length = (l.eraseIdx o).length + 1 :=
    List.length_insertIdx n _ hn'
  have hn2 : n < (List.insertIdx n l[o] (l.eraseIdx o)).length := by omega
  rw [List.getElem?_eq_getElem hn2]
  congr 1
  exact List.getElem_insertIdx_self _ _ _ hn'

/-- C7: when both drag ids are found in category `catIndex`, `handleDragEnd` sets
that category's items to the `arrayMove` of its previous items (the source item
moved to the target index, which afterwards holds exactly that item), the new items
are a permutation of the old, and every other category — title, highlight flag and
items — is unchanged. -/
theorem handleDragEnd_spec (menu : RestaurantMenu) (catIndex : Nat) (cat : MenuCategory)
    (activeId overId : String) (o n : Nat)
    (hcat : menu.categories[catIndex]? = some cat)
    (hne : activeId ≠ overId)
    (ho : findDragIdx catIndex cat.items.length activeId = some o)
    (hn : findDragIdx catIndex cat.items.length overId = some n) :
    (handleDragEnd menu catIndex activeId overId).categories[catIndex]? =
        some { cat with items := arrayMove cat.items o n } ∧
      (arrayMove cat.items o n).Perm cat.items ∧
      (arrayMove cat.items o n)[n]? = cat.items[o]? ∧
      ∀ j, j ≠ catIndex →
        (handleDragEnd menu catIndex activeId overId).categories[j]? =
          menu.categories[j]? := by
  have hbeq : (activeId == overId) = false := by simp [hne]
  have ho' : o < cat.items.length := List.mem_range.mp (List.mem_of_find?_eq_some ho)
  have hn' : n < cat.items.length := List.mem_range.mp (List.mem_of_find?_eq_some hn)
  have hlt : catIndex < menu.categories.length := by
    rcases List.getElem?_eq_some_iff.mp hcat with ⟨h, _⟩
    exact h
  refine ⟨?_, arrayMove_perm _ _ _ ho' hn', arrayMove_get_target _ _ _ ho' hn', ?_⟩
  · simp [handleDragEnd, hbeq, hcat, ho, hn, List.getElem?_set_self hlt]
  · intro j hj
    simp [handleDragEnd, hbeq, hcat, ho, hn, List.getElem?_set_ne (Ne.symm hj)]

/-- A concrete menu with a three-item category and a second category for the C7
witness. -/
def dragMenu : RestaurantMenu :=
  { id := "d", slug := "drag", name := "Drag", themeColor := "slate",
    categories := [{ title := "Cat",
                     items := [{ name := "i0", description := "", price := "1" },
                               { name := "i1", description := "", price := "2" },
                               { name := "i2", description := "", price := "3" }] },
                   { title := "Other",
                     items := [{ name := "o0", description := "", price := "4" }],
                     highlight := some true }],
    createdAt := 0 }

/-- C7 witness: dragging item `0-0` onto `0-2` in the concrete menu. -/
theorem handleDragEnd_spec_witness :
    (handleDragEnd dragMenu 0 "0-0" "0-2").categories[0]? =
        some { title := "Cat",
               items := arrayMove [{ name := "i0", description := "", price := "1" },
                                   { name := "i1", description := "", price := "2" },
                                   { name := "i2", description := "", price := "3" }] 0 2 } ∧
      (handleDragEnd dragMenu 0 "0-0" "0-2").categories[1]? = dragMenu.categories[1]? :=
  ⟨(handleDragEnd_spec dragMenu 0
      { title := "Cat",
        items := [{ name := "i0", description := "", price := "1" },
                  { name := "i1", description := "", price := "2" },
                  { name := "i2", description := "", price := "3" }] }
      "0-0" "0-2" 0 2 rfl (by decide) rfl rfl).1,
    (handleDragEnd_spec dragMenu 0
      { title := "Cat",
        items := [{ name := "i0", description := "", price := "1" },
                  { name := "i1", description := "", price := "2" },
                  { name := "i2", description := "", price := "3" }] }
      "0-0" "0-2" 0 2 rfl (by decide) rfl rfl).2.2.2 1 (by decide)⟩

/-! ## C6 — `generateMenuFromAI` never propagates an error

From `src/services/geminiService.ts` (provided as an unnamed source file). The AI
request and the host `JSON.parse` are external collaborators: the request outcome is
an explicit input, and parsing-plus-schema-reading is a parameter `parse` returning
`none` exactly when `JSON.parse` throws on the response text. -/

/-- `Omit<RestaurantMenu, 'id' | 'createdAt' | 'slug'>` as produced by
`generateMenuFromAI`: the fields the AI data and the fallback carry. -/
structure MenuDraft where
  name : String
  businessType : Option String
  themeColor : String
  categories : List MenuCategory
deriving Repr, DecidableEq

/-- Outcome of the `ai.models.generateContent` call: a thrown error, or a response
whose `text` is absent or some string. -/
inductive AIResult where
  | failure
  | success (text : Option String)
deriving Repr, DecidableEq

/-- The fallback draft built in the `catch` block (geminiService lines 134–147):
one localized category containing one placeholder item. -/
def fallbackMenu (establishmentName businessType : String) (language : Language) :
    MenuDraft :=
  { name := establishmentName,
    businessType := some businessType,
    themeColor := "orange",
    categories := [{ title := if language = .pt then "Populares" else "Popular Items",
                     items := [{ name := "Signature Dish",
                                 description :=
                                   if language = .pt then "Especial da casa." else "Our house special.",
                                 price := "12.00" }] }] }

/-- `generateMenuFromAI` (lines 65–149), result shape only: a thrown request error,
a falsy `response.text` (absent or empty — the explicit `throw` lands in the same
`catch`), or a `JSON.parse` failure all produce the fallback; otherwise the parsed
data is returned with `businessType` overridden by the argument. -/
def generateMenuFromAI (parse : String → Option MenuDraft) (resp : AIResult)
    (establishmentName businessType : String) (language : Language) : MenuDraft :=
  match resp with
  | .failure => fallbackMenu establishmentName businessType language
  | .success none => fallbackMenu establishmentName businessType language
  | .success (some t) =>
    if t = "" then fallbackMenu establishmentName businessType language
    else
      match parse t with
      | none => fallbackMenu establishmentName businessType language
      | some d => { d with businessType := some businessType }

/-- The failure cases of the AI call: request error, absent or empty response text,
or unparsable response text. -/
def aiCallFails (parse : String → Option MenuDraft) : AIResult → Prop
  | .failure => True
  | .success none => True
  | .success (some t) => t = "" ∨ parse t = none

/-- C6: on any failure — request error, empty or unparsable response —
`generateMenuFromAI` returns the deterministic fallback draft, which has exactly one
category containing exactly one placeholder item and carries the given establishment
name and business type; the function always yields a well-formed draft and never
propagates the error. -/
theorem generateMenuFromAI_fallback (parse : String → Option MenuDraft) (resp : AIResult)
    (establishmentName businessType : String) (language : Language)
    (hfail : aiCallFails parse resp) :
    generateMenuFromAI parse resp establishmentName businessType language =
        fallbackMenu establishmentName businessType language ∧
      (fallbackMenu establishmentName businessType language).categories.length = 1 ∧
      (∀ c ∈ (fallbackMenu establishmentName businessType language).categories,
        c.items.length = 1) ∧
      (fallbackMenu establishmentName businessType language).name = establishmentName ∧
      (fallbackMenu establishmentName businessType language).businessType =
        some businessType := by
  refine ⟨?_, rfl, ?_, rfl, rfl⟩
  · cases resp with
    | failure => rfl
    | success t? =>
      cases t? with
      | none => rfl
      | some t =>
        rcases hfail with h | h
        · simp [generateMenuFromAI, h]
        · by_cases ht : t = ""
          · simp [generateMenuFromAI, ht]
          · simp [generateMenuFromAI, ht, h]
  · intro c hc
    simp only [fallbackMenu, List.mem_singleton] at hc
    subst hc
    rfl

/-- C6 witness: a concrete failing call (request error, with a parser that also
rejects everything). -/
theorem generateMenuFromAI_fallback_witness :
    generateMenuFromAI (fun _ => none) .failure "Joe's Grill" "Hamburgueria" .pt =
        fallbackMenu "Joe's Grill" "Hamburgueria" .pt ∧
      (fallbackMenu "Joe's Grill" "Hamburgueria" .pt).categories.length = 1 ∧
      (∀ c ∈ (fallbackMenu "Joe's Grill" "Hamburgueria" .pt).categories,
        c.items.length = 1) ∧
      (fallbackMenu "Joe's Grill" "Hamburgueria" .pt).name = "Joe's Grill" ∧
      (fallbackMenu "Joe's Grill" "Hamburgueria" .pt).businessType = some "Hamburgueria" :=
  generateMenuFromAI_fallback (fun _ => none) .failure "Joe's Grill" "Hamburgueria" .pt
    trivial

/-! ## C9 — Editor mutation handlers and reference sharing

The Editor's handlers (Creator.tsx) spread the root menu and copy the top-level
`categories` array, but the category objects inside it and their `items` arrays are
the same JS objects as in the previous menu value. To reason about in-place
mutation, those two kinds of mutable entities are explicit heap cells: category
objects (`catObjs`, addressed by object id) hold their scalar fields and a
reference to an items array (`itemArrs`, addressed by array id). Item objects are
never mutated in place by the handlers (slots are overwritten with fresh objects),
so items stay plain values. A root menu value holds the list of category-object
references; its scalar fields are copied by value by the `{ ...menu }` spreads and
play no role in these claims. Out-of-range indices or dangling references are not
produced by the rendered handlers and are modelled as no-ops. -/

/-- A mutable JS category object: scalar fields plus its items-array reference. -/
structure CatObj where
  title : String
  highlight : Option Bool
  itemsRef : Nat
deriving Repr, DecidableEq

/-- The mutable entities reachable from an Editor menu value. -/
structure EditorHeap where
  catObjs : List (Nat × CatObj)
  itemArrs : List (Nat × List MenuItem)
deriving Repr, DecidableEq

/-- The root menu value held in React state: the categories array as a list of
category-object references. -/
structure MenuRef where
  categories : List Nat
deriving Repr, DecidableEq

/-- Dereference one category object to its observable `MenuCategory` value. -/
def readCat (h : EditorHeap) (cid : Nat) : Option MenuCategory :=
  (recGet h.catObjs cid).bind fun co =>
    (recGet h.itemArrs co.itemsRef).map fun items =>
      { title := co.title, items := items, highlight := co.highlight }

/-- The observable categories of a menu value under a heap, position by position. -/
def readMenu (h : EditorHeap) (m : MenuRef) : List (Option MenuCategory) :=
  m.categories.map (readCat h)

/-- `updateCategoryTitle` (lines 393–398): `[...menu.categories]` copies the array
of references, then `newCats[index].title = newTitle` mutates the shared category
object in place; the new root spreads the old menu with the copied array. -/
def updateCategoryTitle (h : EditorHeap) (m : MenuRef) (index : Nat) (newTitle : String) :
    EditorHeap × MenuRef :=
  match m.categories[index]? with
  | none => (h, m)
  | some cid =>
    match recGet h.catObjs cid with
    | none => (h, m)
    | some co =>
      ({ h with catObjs := recSet h.catObjs cid ({ co with title := newTitle }) },
        { categories := m.categories })

/-- `toggleCategoryHighlight` (lines 400–405): in-place
`newCats[index].highlight = !newCats[index].highlight` on the shared category
object (JS `!undefined = true`). -/
def toggleCategoryHighlight (h : EditorHeap) (m : MenuRef) (index : Nat) :
    EditorHeap × MenuRef :=
  match m.categories[index]? with
  | none => (h, m)
  | some cid =>
    match recGet h.catObjs cid with
    | none => (h, m)
    | some co =>
      ({ h with catObjs :=
           recSet h.catObjs cid ({ co with highlight := some (!co.highlight.getD false) }) },
        { categories := m.categories })

/-- The assignable fields of a `MenuItem` (`keyof MenuItem`). -/
inductive ItemField where
  | name
  | description
  | price
  | image
deriving Repr, DecidableEq

/-- `{ ...item, [field]: value }` for a string-valued field. -/
def setItemField (item : MenuItem) : ItemField → String → MenuItem
  | .name, v => { item with name := v }
  | .description, v => { item with description := v }
  | .price, v => { item with price := v }
  | .image, v => { item with image := some v }

/-- `updateItem` (lines 414–422): the slot `items[itemIndex]` of the shared items
array is overwritten in place with a fresh item object. -/
def updateItem (h : EditorHeap) (m : MenuRef) (catIndex itemIndex : Nat)
    (field : ItemField) (value : String) : EditorHeap × MenuRef :=
  match m.categories[catIndex]? with
  | none => (h, m)
  | some cid =>
    match recGet h.catObjs cid with
    | none => (h, m)
    | some co =>
      match recGet h.itemArrs co.itemsRef with
      | none => (h, m)
      | some items =>
        match items[itemIndex]? with
        | none => (h, m)
        | some item =>
          let newItems := items.set itemIndex (setItemField item field value)
          ({ h with itemArrs := recSet h.itemArrs co.itemsRef newItems },
            { categories := m.categories })

/-- `addItem` (lines 534–549): guarded on a non-empty name and price in the
new-item form state; `newCats[catIndex].items.push(newItem)` appends to the shared
items array in place (`description` defaults to the empty string). -/
def addItem (h : EditorHeap) (m : MenuRef) (catIndex : Nat)
    (itemName itemPrice : String) (itemDescription itemImage : Option String) :
    EditorHeap × MenuRef :=
  if itemName = "" ∨ itemPrice = "" then (h, m)
  else
    match m.categories[catIndex]? with
    | none => (h, m)
    | some cid =>
      match recGet h.catObjs cid with
      | none => (h, m)
      | some co =>
        match recGet h.itemArrs co.itemsRef with
        | none => (h, m)
        | some items =>
          let newItem : MenuItem :=
            { name := itemName, price := itemPrice,
              description := itemDescription.getD "", image := itemImage }
          ({ h with itemArrs := recSet h.itemArrs co.itemsRef (items ++ [newItem]) },
            { categories := m.categories })

/-- `deleteItem` (lines 551–556): `newCats[catIndex].items.splice(itemIndex, 1)`
removes the slot from the shared items array in place. -/
def deleteItem (h : EditorHeap) (m : MenuRef) (catIndex itemIndex : Nat) :
    EditorHeap × MenuRef :=
  match m.categories[catIndex]? with
  | none => (h, m)
  | some cid =>
    match recGet h.catObjs cid with
    | none => (h, m)
    | some co =>
      match recGet h.itemArrs co.itemsRef with
      | none => (h, m)
      | some items =>
        ({ h with itemArrs := recSet h.itemArrs co.itemsRef (items.eraseIdx itemIndex) },
          { categories := m.categories })

theorem readCat_setCatObj_self (h : EditorHeap) (cid : Nat) (co : CatObj) :
    readCat { h with catObjs := recSet h.catObjs cid co } cid =
      (recGet h.itemArrs co.itemsRef).map
        (fun items => { title := co.title, items := items, highlight := co.highlight }) := by
  simp [readCat, recGet_recSet_self]

theorem readCat_setCatObj_ne (h : EditorHeap) (cid cid' : Nat) (co : CatObj)
    (hne : cid' ≠ cid) :
    readCat { h with catObjs := recSet h.catObjs cid co } cid' = readCat h cid' := by
  simp [readCat, recGet_recSet_ne _ _ _ _ (Ne.symm hne)]

theorem readCat_setItemArr_self (h : EditorHeap) (cid : Nat) (co : CatObj)
    (arr : List MenuItem) (hco : recGet h.catObjs cid = some co) :
    readCat { h with itemArrs := recSet h.itemArrs co.itemsRef arr } cid =
      some { title := co.title, items := arr, highlight := co.highlight } := by
  simp [readCat, hco, recGet_recSet_self]

theorem readCat_setItemArr_ne (h : EditorHeap) (cid aid : Nat) (arr : List MenuItem)
    (href : ∀ co', recGet h.catObjs cid = some co' → co'.itemsRef ≠ aid) :
    readCat { h with itemArrs := recSet h.itemArrs aid arr } cid = readCat h cid := by
  cases hco : recGet h.catObjs cid with
  | none => simp [readCat, hco]
  | some co' =>
    simp [readCat, hco, recGet_recSet_ne _ _ _ _ (Ne.symm (href co' hco))]

/-- A one-category heap and menu value for the C9 counterexample and witness. -/
def c9Heap : EditorHeap :=
  ⟨[(0, { title := "Starters", highlight := none, itemsRef := 0 })],
    [(0, [{ name := "Soup", description := "", price := "5.00" }])]⟩

/-- The menu value referencing category object `0` of `c9Heap`. -/
def c9Menu : MenuRef := ⟨[0]⟩

/-- C9 counterexample: `addItem` pushes onto the items array shared with the
previous menu value, so the previous value's observable content changes — the
handler mutates a nested array of the previous menu in place instead of leaving it
unchanged. -/
theorem addItem_mutates_previous :
    readMenu (addItem c9Heap c9Menu 0 "Bread" "2.00" none none).1 c9Menu ≠
      readMenu c9Heap c9Menu := by
  decide

/-- C9 amended: each mutation handler copies the top-level categories array (the new
root lists the same category references) and performs the intended structural edit
on the target category, leaving category objects and items arrays not aliased to the
edited ones unchanged; but because the nested category objects and items arrays are
shared, the previous menu value reads back equal to the new menu after the edit
rather than being left unchanged. -/
theorem editor_handlers_shared_mutation :
    (∀ (h : EditorHeap) (m : MenuRef) (index : Nat) (newTitle : String) (cid : Nat)
        (co : CatObj), m.categories[index]? = some cid → recGet h.catObjs cid = some co →
      (updateCategoryTitle h m index newTitle).2.categories = m.categories ∧
        readMenu (updateCategoryTitle h m index newTitle).1 m =
          readMenu (updateCategoryTitle h m index newTitle).1
            (updateCategoryTitle h m index newTitle).2 ∧
        readCat (updateCategoryTitle h m index newTitle).1 cid =
          (recGet h.itemArrs co.itemsRef).map
            (fun items => { title := newTitle, items := items, highlight := co.highlight }) ∧
        ∀ cid', cid' ≠ cid →
          readCat (updateCategoryTitle h m index newTitle).1 cid' = readCat h cid') ∧
      (∀ (h : EditorHeap) (m : MenuRef) (index : Nat) (cid : Nat) (co : CatObj),
          m.categories[index]? = some cid → recGet h.catObjs cid = some co →
        (toggleCategoryHighlight h m index).2.categories = m.categories ∧
          readMenu (toggleCategoryHighlight h m index).1 m =
            readMenu (toggleCategoryHighlight h m index).1 (toggleCategoryHighlight h m index).2 ∧
          readCat (toggleCategoryHighlight h m index).1 cid =
            (recGet h.itemArrs co.itemsRef).map
              (fun items => { title := co.title, items := items,
                              highlight := some (!co.highlight.getD false) }) ∧
          ∀ cid', cid' ≠ cid →
            readCat (toggleCategoryHighlight h m index).1 cid' = readCat h cid') ∧
      (∀ (h : EditorHeap) (m : MenuRef) (catIndex itemIndex : Nat) (field : ItemField)
          (value : String) (cid : Nat) (co : CatObj) (items : List MenuItem) (item : MenuItem),
          m.categories[catIndex]? = some cid → recGet h.catObjs cid = some co →
          recGet h.itemArrs co.itemsRef = some items → items[itemIndex]? = some item →
        (updateItem h m catIndex itemIndex field value).2.categories = m.categories ∧
          readMenu (updateItem h m catIndex itemIndex field value).1 m =
            readMenu (updateItem h m catIndex itemIndex field value).1
              (updateItem h m catIndex itemIndex field value).2 ∧
          readCat (updateItem h m catIndex itemIndex field value).1 cid =
            some { title := co.title,
                   items := items.set itemIndex (setItemField item field value),
                   highlight := co.highlight } ∧
          ∀ cid', (∀ co', recGet h.catObjs cid' = some co' → co'.itemsRef ≠ co.itemsRef) →
            readCat (updateItem h m catIndex itemIndex field value).1 cid' = readCat h cid') ∧
      (∀ (h : EditorHeap) (m : MenuRef) (catIndex : Nat) (itemName itemPrice : String)
          (itemDescription itemImage : Option String) (cid : Nat) (co : CatObj)
          (items : List MenuItem), itemName ≠ "" → itemPrice ≠ "" →
          m.categories[catIndex]? = some cid → recGet h.catObjs cid = some co →
          recGet h.itemArrs co.itemsRef = some items →
        (addItem h m catIndex itemName itemPrice itemDescription itemImage).2.categories =
            m.categories ∧
          readMenu (addItem h m catIndex itemName itemPrice itemDescription itemImage).1 m =
            readMenu (addItem h m catIndex itemName itemPrice itemDescription itemImage).1
              (addItem h m catIndex itemName itemPrice itemDescription itemImage).2 ∧
          readCat (addItem h m catIndex itemName itemPrice itemDescription itemImage).1 cid =
            some { title := co.title,
                   items := items ++ [{ name := itemName, price := itemPrice,
                                        description := itemDescription.getD "",
                                        image := itemImage }],
                   highlight := co.highlight } ∧
          ∀ cid', (∀ co', recGet h.catObjs cid' = some co' → co'.itemsRef ≠ co.itemsRef) →
            readCat (addItem h m catIndex itemName itemPrice itemDescription itemImage).1 cid' =
              readCat h cid') ∧
      ∀ (h : EditorHeap) (m : MenuRef) (catIndex itemIndex : Nat) (cid : Nat) (co : CatObj)
          (items : List MenuItem),
          m.categories[catIndex]? = some cid → recGet h.catObjs cid = some co →
          recGet h.itemArrs co.itemsRef = some items →
        (deleteItem h m catIndex itemIndex).2.categories = m.categories ∧
          readMenu (deleteItem h m catIndex itemIndex).1 m =
            readMenu (deleteItem h m catIndex itemIndex).1 (deleteItem h m catIndex itemIndex).2 ∧
          readCat (deleteItem h m catIndex itemIndex).1 cid =
            some { title := co.title, items := items.eraseIdx itemIndex,
                   highlight := co.highlight } ∧
          ∀ cid', (∀ co', recGet h.catObjs cid' = some co' → co'.itemsRef ≠ co.itemsRef) →
            readCat (deleteItem h m catIndex itemIndex).1 cid' = readCat h cid' := by
  refine ⟨?_, ?_, ?_, ?_, ?_⟩
  · intro h m index newTitle cid co hc hco
    have hdef : updateCategoryTitle h m index newTitle =
        ({ h with catObjs := recSet h.catObjs cid ({ co with title := newTitle }) },
          { categories := m.categories }) := by
      simp [updateCategoryTitle, hc, hco]
    rw [hdef]
    exact ⟨rfl, rfl, readCat_setCatObj_self h cid _,
      fun cid' hne => readCat_setCatObj_ne h cid cid' _ hne⟩
  · intro h m index cid co hc hco
    have hdef : toggleCategoryHighlight h m index =
        ({ h with catObjs :=
             recSet h.catObjs cid ({ co with highlight := some (!co.highlight.getD false) }) },
          { categories := m.categories }) := by
      simp [toggleCategoryHighlight, hc, hco]
    rw [hdef]
    exact ⟨rfl, rfl, readCat_setCatObj_self h cid _,
      fun cid' hne => readCat_setCatObj_ne h cid cid' _ hne⟩
  · intro h m catIndex itemIndex field value cid co items item hc hco hit hitem
    have hdef : updateItem h m catIndex itemIndex field value =
        ({ h with itemArrs := recSet h.itemArrs co.itemsRef (items.set itemIndex (setItemField item field value)) },
          { categories := m.categories }) := by
      simp [updateItem, hc, hco, hit, hitem]
    rw [hdef]
    exact ⟨rfl, rfl, readCat_setItemArr_self h cid co _ hco,
      fun cid' hne => readCat_setItemArr_ne h cid' co.itemsRef _ hne⟩
  · intro h m catIndex itemName itemPrice itemDescription itemImage cid co items
      hname hprice hc hco hit
    have hdef : addItem h m catIndex itemName itemPrice itemDescription itemImage =
        ({ h with itemArrs := recSet h.itemArrs co.itemsRef (items ++ [{ name := itemName, price := itemPrice, description := itemDescription.getD "", image := itemImage }]) },
          { categories := m.categories }) := by
      simp [addItem, hname, hprice, hc, hco, hit]
    rw [hdef]
    exact ⟨rfl, rfl, readCat_setItemArr_self h cid co _ hco,
      fun cid' hne => readCat_setItemArr_ne h cid' co.itemsRef _ hne⟩
  · intro h m catIndex itemIndex cid co items hc hco hit
    have hdef : deleteItem h m catIndex itemIndex =
        ({ h with itemArrs := recSet h.itemArrs co.itemsRef (items.eraseIdx itemIndex) }, { categories := m.categories }) := by
      simp [deleteItem, hc, hco, hit]
    rw [hdef]
    exact ⟨rfl, rfl, readCat_setItemArr_self h cid co _ hco,
      fun cid' hne => readCat_setItemArr_ne h cid' co.itemsRef _ hne⟩

/-- C9 witness: the amended behaviour at the concrete heap — a title edit keeps the
reference list and edits the shared category object, and `addItem` appends to the
shared items array observed by both old and new menu values. -/
theorem editor_handlers_shared_mutation_witness :
    ((updateCategoryTitle c9Heap c9Menu 0 "Mains").2.categories = c9Menu.categories ∧
        readCat (updateCategoryTitle c9Heap c9Menu 0 "Mains").1 0 =
          (recGet c9Heap.itemArrs
              ({ title := "Starters", highlight := none, itemsRef := 0 } : CatObj).itemsRef).map
            (fun items => { title := "Mains", items := items, highlight := none })) ∧
      readMenu (addItem c9Heap c9Menu 0 "Bread" "2.00" none none).1 c9Menu =
        readMenu (addItem c9Heap c9Menu 0 "Bread" "2.00" none none).1
          (addItem c9Heap c9Menu 0 "Bread" "2.00" none none).2 :=
  ⟨⟨(editor_handlers_shared_mutation.1 c9Heap c9Menu 0 "Mains" 0
        { title := "Starters", highlight := none, itemsRef := 0 } rfl rfl).1,
      (editor_handlers_shared_mutation.1 c9Heap c9Menu 0 "Mains" 0
        { title := "Starters", highlight := none, itemsRef := 0 } rfl rfl).2.2.1⟩,
    (editor_handlers_shared_mutation.2.2.2.1 c9Heap c9Menu 0 "Bread" "2.00" none none 0
        { title := "Starters", highlight := none, itemsRef := 0 }
        [{ name := "Soup", description := "", price := "5.00" }]
        (by decide) (by decide) rfl rfl rfl).2.1⟩

end FlashMenu
